import Mathlib

/-!
Verification development for the fast-scraper-v2 orchestration layer.

The embedding covers the two source files:
* `src/app/go_bridge.py` — `scrape_with_go`, the bridge that invokes the
  external Go engine and translates process-level outcomes into a result
  dictionary;
* `src/app/main.py` — the `ScrapeRequest` pydantic model and its validators,
  `get_proxy_list`, and the `/scrape` orchestration `scrape_urls`.

Python dictionaries produced by the engine and by the bridge are modelled by
an inductive `Json` value; Python `float` time quantities are modelled by `ℚ`;
Python `int` by `ℤ` (or `ℕ` for counts that are list lengths).  The external
collaborators of the code — the filesystem check on the engine executable, the
engine process itself, `json.loads`, and `os.getenv` — are parameters of the
embedding (`EngineFs`, `engine`, `parse`, `getenv`), so every theorem is
quantified over their behaviour.  Exceptions that the Python code raises or
lets escape are modelled by `Except` error values.
-/

/-! ### Character-level string primitives

Core `String` functions (`split`, `startsWith`, `toUpper`, `strip`) are
re-implemented structurally on `List Char` so that they mirror the Python
semantics used by the source and compute by kernel reduction. -/

/-- Uppercase an ASCII letter, as Python `str.upper` does on the ASCII
class names used by the code. -/
def charUpper (c : Char) : Char :=
  if 97 ≤ c.toNat ∧ c.toNat ≤ 122 then Char.ofNat (c.toNat - 32) else c

/-- Python `s.upper()` (restricted to ASCII, which covers the class tags). -/
def strUpper (s : String) : String := ⟨s.data.map charUpper⟩

/-- Whether the first list starts with the second (Python `str.startswith`). -/
def startsWithChars : List Char → List Char → Bool
  | _, [] => true
  | [], _ :: _ => false
  | c :: cs, d :: ds => c == d && startsWithChars cs ds

/-- Python `s.startswith(pat)`. -/
def strStarts (s pat : String) : Bool := startsWithChars s.data pat.data

/-- Whether `pat` occurs contiguously inside the list. -/
def containsChars (pat : List Char) : List Char → Bool
  | [] => startsWithChars [] pat
  | c :: cs => startsWithChars (c :: cs) pat || containsChars pat cs

/-- Whether `pat` occurs as a contiguous substring of `s`; used to state that
a diagnostic message contains a given piece of text. -/
def strContains (s pat : String) : Bool := containsChars pat.data s.data

/-- Python `s.split(sep)` for a one-character separator. -/
def splitChars (sep : Char) : List Char → List (List Char)
  | [] => [[]]
  | c :: cs =>
    if c == sep then [] :: splitChars sep cs
    else
      match splitChars sep cs with
      | [] => [[c]]
      | p :: ps => (c :: p) :: ps

/-- Python `s.split(",")`. -/
def strSplitComma (s : String) : List String := (splitChars ',' s.data).map String.mk

/-- The whitespace characters stripped by Python `str.strip()` (ASCII part). -/
def pyIsSpace (c : Char) : Bool :=
  c == ' ' || c == '\t' || c == '\n' || c == '\r' || c == '\x0b' || c == '\x0c'

/-- Python `s.strip()` (ASCII whitespace). -/
def pyStrip (s : String) : String :=
  ⟨(((s.data.dropWhile pyIsSpace).reverse).dropWhile pyIsSpace).reverse⟩

/-- Python `",".join(xs)`. -/
def joinComma (xs : List String) : String := String.intercalate "," xs

/-- Python `" ".join(cmd)`, used when the invoked command is reported in a
diagnostic. -/
def joinSpace (xs : List String) : String := String.intercalate " " xs

/-! ### JSON values

The bridge returns Python dictionaries and, on the success path, the raw value
produced by `json.loads` on the engine output.  Both are modelled by `Json`. -/

/-- A Python/JSON value as handled by `go_bridge.py` and `main.py`. -/
inductive Json where
  | null : Json
  | jbool (b : Bool) : Json
  | num (q : ℚ) : Json
  | str (s : String) : Json
  | arr (elems : List Json) : Json
  | obj (fields : List (String × Json)) : Json

/-- Association-list lookup for object fields (Python `d[key]`; `none` models
the `KeyError` / `TypeError` raised when the key is absent). -/
def jLookup : List (String × Json) → String → Option Json
  | [], _ => none
  | (k, v) :: rest, key => if k = key then some v else jLookup rest key

/-- Python `value[key]`: field access on an object, failing on any other
shape (Python raises `TypeError` there, `KeyError` on a missing key; both are
modelled by `none`). -/
def Json.lookup : Json → String → Option Json
  | .obj kvs, key => jLookup kvs key
  | _, _ => none

/-- Read a value as a Python number.  Python `bool` is an `int` subclass, so
`True`/`False` count as `1`/`0` in arithmetic. -/
def Json.asNum : Json → Option ℚ
  | .num q => some q
  | .jbool b => some (if b then 1 else 0)
  | _ => none

/-- Numeric field access: `d[key]` followed by use as a number. -/
def numField (j : Json) (key : String) : Option ℚ := (j.lookup key).bind Json.asNum

/-! ### The engine bridge (`src/app/go_bridge.py`, `scrape_with_go`) -/

/-- State of the filesystem checks the bridge performs on the Go executable
(`os.path.isfile` and `os.access(..., X_OK)`).  When the file exists but is
not executable the source calls `os.chmod(path, 0o755)` and proceeds; the
`chmod` is modelled as succeeding, so `goScraperExecutable` never blocks the
bridge. -/
structure EngineFs where
  goScraperExists : Bool
  goScraperExecutable : Bool

/-- Outcome of one `subprocess.run` invocation of the engine: its exit code,
captured standard output and standard error, and the measured wall-clock
duration (`os.times().elapsed` after minus before). -/
structure EngineRun where
  exitCode : ℤ
  stdoutText : String
  stderrText : String
  elapsed : ℚ

/-- The external collaborators of the bridge: the filesystem state, the engine
process (a function from the argument vector to a run outcome), and
`json.loads` (a function from raw output to a parsed value or a parse
error). -/
structure EngineEnv where
  fs : EngineFs
  engine : List String → EngineRun
  parse : String → Except String Json

/-- The path the source builds with `os.path.join(dirname(__file__), "..",
"go-scraper", "go-scraper")`. -/
def go_scraper_path : String := "../go-scraper/go-scraper"

/-- The argument vector built for the engine invocation.  The `-proxies`
argument pair is appended only when the proxy list is non-empty
(`if proxies:` in the source). -/
def buildCmd (urls proxies : List String) (proxy_type : String)
    (timeout max_retries : ℤ) : List String :=
  [go_scraper_path, "-urls", joinComma urls, "-proxy-type", proxy_type,
   "-timeout", toString timeout, "-max-retries", toString max_retries] ++
  (if proxies = [] then [] else ["-proxies", joinComma proxies])

/-- The `error` message the bridge writes into each synthesized URL result
when the engine process exits non-zero; this is the concrete form of the
spec's `EngineExecutionFailed` error kind. -/
def engineExecutionFailedError (code : ℤ) : String :=
  "Go scraper process failed with code " ++ toString code

/-- The `detailed_error` diagnostic for a non-zero exit: captured standard
output, standard error, and the invoked command. -/
def engineExecutionFailedDetail (run : EngineRun) (cmd : List String) : String :=
  "STDOUT: " ++ run.stdoutText ++ "\nSTDERR: " ++ run.stderrText ++
    "\nCommand: " ++ joinSpace cmd

/-- One synthesized URL result for the non-zero-exit branch. -/
def perUrlExecFailed (run : EngineRun) (cmd : List String) (proxy_type : String)
    (n : ℕ) (url : String) : Json :=
  .obj [("url", .str url),
        ("error", .str (engineExecutionFailedError run.exitCode)),
        ("detailed_error", .str (engineExecutionFailedDetail run cmd)),
        ("success", .jbool false),
        ("proxy_used", .str proxy_type),
        ("attempts_made", .num 0),
        ("elapsed_seconds", .num (run.elapsed / (n : ℚ)))]

/-- The full dictionary returned by the bridge when the engine exits
non-zero. -/
def execFailedJson (run : EngineRun) (cmd : List String) (urls : List String)
    (proxy_type : String) : Json :=
  .obj [("results", .arr (urls.map (perUrlExecFailed run cmd proxy_type urls.length))),
        ("total", .num (urls.length : ℚ)),
        ("successful", .num 0),
        ("failed", .num (urls.length : ℚ)),
        ("total_time_seconds", .num run.elapsed),
        ("proxy_type_used", .str proxy_type)]

/-- The `error` message for the JSON-decode-failure branch; the concrete form
of the spec's `EngineOutputMalformed` error kind. -/
def engineOutputMalformedError : String := "Failed to parse Go scraper output"

/-- The first 1000 characters of the raw engine output (Python
`process.stdout[:1000]`). -/
def stdoutRawPreview (s : String) : String := ⟨s.data.take 1000⟩

/-- The truncated output preview placed in the diagnostic: the first 1000
characters followed by an ellipsis when the output is longer than 1000
characters, the whole output otherwise.  (In the source, `process` is always
bound in this handler, since `json.loads` is only reached after a zero-exit
run.) -/
def stdoutSnippet (s : String) : String :=
  if 1000 < s.data.length then stdoutRawPreview s ++ "..." else s

/-- The `detailed_error` diagnostic for the JSON-decode-failure branch. -/
def malformedDetail (parseErr : String) (stdout : String) : String :=
  "JSON Parse Error: " ++ parseErr ++ "\nOutput (truncated): " ++ stdoutSnippet stdout

/-- One synthesized URL result for the JSON-decode-failure branch. -/
def perUrlMalformed (run : EngineRun) (parseErr : String) (proxy_type : String)
    (n : ℕ) (url : String) : Json :=
  .obj [("url", .str url),
        ("error", .str engineOutputMalformedError),
        ("detailed_error", .str (malformedDetail parseErr run.stdoutText)),
        ("success", .jbool false),
        ("proxy_used", .str proxy_type),
        ("attempts_made", .num 0),
        ("elapsed_seconds", .num (run.elapsed / (n : ℚ)))]

/-- The full dictionary returned by the bridge when the engine output fails
JSON decoding. -/
def malformedJson (run : EngineRun) (parseErr : String) (urls : List String)
    (proxy_type : String) : Json :=
  .obj [("results", .arr (urls.map (perUrlMalformed run parseErr proxy_type urls.length))),
        ("total", .num (urls.length : ℚ)),
        ("successful", .num 0),
        ("failed", .num (urls.length : ℚ)),
        ("total_time_seconds", .num run.elapsed),
        ("proxy_type_used", .str proxy_type)]

/-- The dictionary returned for an empty URL list, before any filesystem
check or engine invocation. -/
def emptyResultJson (proxy_type : String) : Json :=
  .obj [("results", .arr []),
        ("total", .num 0),
        ("successful", .num 0),
        ("failed", .num 0),
        ("total_time_seconds", .num 0),
        ("proxy_type_used", .str proxy_type)]

/-- The failures `scrape_with_go` can raise to its caller: `FileNotFoundError`
when the executable is missing (the spec's `EngineUnavailable`), and the
uncaught `KeyError`/`TypeError` escaping the `try` block when a zero-exit
output parses as JSON but lacks the `total`/`successful`/`failed` keys the
bridge reads while logging. -/
inductive BridgeError where
  | fileNotFound (msg : String)
  | uncaughtKeyError (key : String)
deriving DecidableEq

/-- The message of the `FileNotFoundError` raised for a missing executable. -/
def engineNotFoundError : String :=
  "Go scraper executable not found at " ++ go_scraper_path

/-- The body of the `try` block: run the engine process on the built command
(the engine is a function, so the repeated `env.engine cmd` below denotes the
single run the source performs), then dispatch on the outcome.  A non-zero
exit (`subprocess.CalledProcessError`) and a JSON decode failure
(`json.JSONDecodeError`) are degraded to synthesized per-URL results; on a
zero exit with decodable output the source immediately reads
`result["total"]`, `result["successful"]` and `result["failed"]` in a log
statement, so a missing key (or a non-object value) raises an uncaught
`KeyError`/`TypeError`; otherwise the raw parsed value is returned
unchanged. -/
def engineStep (env : EngineEnv) (cmd : List String) (urls : List String)
    (proxy_type : String) : Except BridgeError Json :=
  if (env.engine cmd).exitCode = 0 then
    match env.parse (env.engine cmd).stdoutText with
    | .error e => .ok (malformedJson (env.engine cmd) e urls proxy_type)
    | .ok result =>
      match result.lookup "total" with
      | none => .error (.uncaughtKeyError "total")
      | some _ =>
        match result.lookup "successful" with
        | none => .error (.uncaughtKeyError "successful")
        | some _ =>
          match result.lookup "failed" with
          | none => .error (.uncaughtKeyError "failed")
          | some _ => .ok result
  else .ok (execFailedJson (env.engine cmd) cmd urls proxy_type)

/-- The bridge `scrape_with_go(urls, proxies, proxy_type, timeout,
max_retries)` from `src/app/go_bridge.py`: an empty URL list short-circuits
to a zero result; a missing executable raises `FileNotFoundError`; otherwise
the command is built and the engine invoked (a present but non-executable
file is `chmod`-ed and the call proceeds). -/
def scrape_with_go (env : EngineEnv) (urls proxies : List String)
    (proxy_type : String) (timeout max_retries : ℤ) : Except BridgeError Json :=
  if urls = [] then .ok (emptyResultJson proxy_type)
  else if env.fs.goScraperExists = false then .error (.fileNotFound engineNotFoundError)
  else engineStep env (buildCmd urls proxies proxy_type timeout max_retries) urls proxy_type

/-! ### Request validation (`src/app/main.py`, `ScrapeRequest`) -/

/-- The request body: three optional URL lists (an absent list and an empty
list behave identically in every use in the source, so both are modelled as
`[]`), a timeout and a retry count with the source's defaults. -/
structure ScrapeRequest where
  datacenter : List String := []
  residential : List String := []
  mobile : List String := []
  timeout : ℤ := 5
  max_retries : ℤ := 1

/-- One pydantic validation error: the reported field location and the
message raised by the validator. -/
structure FieldError where
  loc : String
  msg : String
deriving DecidableEq

/-- A single-quote character, written via its code point. -/
def squote : String := String.singleton (Char.ofNat 39)

/-- The message of the URL-scheme validation error, which interpolates the
offending URL and field. -/
def urlSchemeError (field url : String) : String :=
  "URL " ++ squote ++ url ++ squote ++ " in " ++ field ++
    " must start with http:// or https://"

/-- The URL scheme check of the root validator. -/
def isValidUrl (u : String) : Bool := strStarts u "http://" || strStarts u "https://"

/-- Errors of the `timeout` field validator. -/
def timeoutErrors (v : ℤ) : List FieldError :=
  if v < 1 then [⟨"timeout", "Timeout must be at least 1 second"⟩]
  else if 60 < v then [⟨"timeout", "Timeout cannot exceed 60 seconds"⟩]
  else []

/-- Errors of the `max_retries` field validator. -/
def maxRetriesErrors (v : ℤ) : List FieldError :=
  if v < 0 then [⟨"max_retries", "Max retries cannot be negative"⟩]
  else if 10 < v then [⟨"max_retries", "Max retries cannot exceed 10"⟩]
  else []

/-- The first URL failing the scheme check, scanning the fields in the order
the root validator does (`datacenter`, `residential`, `mobile`); the
validator raises on the first offender. -/
def firstBadUrl (r : ScrapeRequest) : Option (String × String) :=
  match r.datacenter.find? (fun u => !isValidUrl u) with
  | some u => some ("datacenter", u)
  | none =>
    match r.residential.find? (fun u => !isValidUrl u) with
    | some u => some ("residential", u)
    | none =>
      match r.mobile.find? (fun u => !isValidUrl u) with
      | some u => some ("mobile", u)
      | none => none

/-- Errors of the root validator, reported by pydantic under the `__root__`
location: first the at-least-one-populated-list check, then the per-URL
scheme check. -/
def rootErrors (r : ScrapeRequest) : List FieldError :=
  if r.datacenter = [] ∧ r.residential = [] ∧ r.mobile = [] then
    [⟨"__root__", "At least one URL list must be provided"⟩]
  else
    match firstBadUrl r with
    | some (field, url) => [⟨"__root__", urlSchemeError field url⟩]
    | none => []

/-- The complete pydantic validation of a candidate request: field validators
in field order, then the root validator; the request is accepted exactly when
no errors are collected. -/
def validate (r : ScrapeRequest) : List FieldError :=
  timeoutErrors r.timeout ++ maxRetriesErrors r.max_retries ++ rootErrors r

/-! ### Proxy resolution and orchestration (`src/app/main.py`) -/

/-- The environment-variable name consulted for a class's proxy pool. -/
def proxiesEnvVar (proxy_type : String) : String := strUpper proxy_type ++ "_PROXIES"

/-- The proxy resolver `get_proxy_list`: read the class's environment
variable (`os.getenv(var, "")`), return `[]` for an absent or empty
configuration, otherwise split on commas, strip whitespace, and discard blank
entries. -/
def get_proxy_list (getenv : String → Option String) (proxy_type : String) : List String :=
  if (getenv (proxiesEnvVar proxy_type)).getD "" = "" then []
  else ((strSplitComma ((getenv (proxiesEnvVar proxy_type)).getD "")).map pyStrip).filter
    (fun p => p ≠ "")

/-- The fixed class enumeration order of the per-class loop. -/
def scrapeClasses : List String := ["datacenter", "residential", "mobile"]

/-- Python `getattr(request, proxy_type, None)` for the three class fields. -/
def ScrapeRequest.urlsFor (r : ScrapeRequest) (c : String) : List String :=
  if c = "datacenter" then r.datacenter
  else if c = "residential" then r.residential
  else if c = "mobile" then r.mobile
  else []

/-- One per-class entry of `proxy_type_details`. -/
structure ClassDetail where
  urls_count : ℕ
  successful : ℚ
  failed : ℚ
  time_seconds : ℚ
  proxies_used_count : ℕ

/-- The `combined_results` dictionary of `scrape_urls`: the flat results
list, the `meta` counters, and the per-class details (an insertion-ordered
dictionary, modelled as an association list). -/
structure Aggregate where
  results : List Json
  total_urls : ℕ
  successful : ℚ
  failed : ℚ
  total_time_seconds : ℚ
  proxy_types_used : List String
  python_overhead_seconds : ℚ
  proxy_type_details : List (String × ClassDetail)

/-- The failures that abort the orchestration: a failure raised by the
bridge, or an uncaught `KeyError`/`TypeError` while the orchestrator reads
the bridge result's fields.  (For a non-numeric `total_time_seconds` the
source would raise only at the final overhead sum; the model surfaces the
same abort when the value is stored.) -/
inductive OrchError where
  | bridge (e : BridgeError)
  | pyTypeOrKeyError (field : String)
deriving DecidableEq

/-- The external collaborators of the orchestrator: the bridge environment,
`os.getenv`, and the measured wall-clock duration of the whole request
(`time.time()` at the end minus at the start). -/
structure OrchEnv where
  eng : EngineEnv
  getenv : String → Option String
  total_time : ℚ

/-- The initial `combined_results` value. -/
def initAgg : Aggregate :=
  { results := [], total_urls := 0, successful := 0, failed := 0,
    total_time_seconds := 0, proxy_types_used := [],
    python_overhead_seconds := 0, proxy_type_details := [] }

/-- The updates one successfully processed class applies to
`combined_results`: count the submitted URLs, record the class as used,
extend the flat results list, add the bridge-reported successful/failed
counts, and append the per-class detail entry. -/
def accAdd (acc : Aggregate) (c : String) (nUrls pcount : ℕ) (dres : List Json)
    (dsucc dfail dts : ℚ) : Aggregate :=
  { results := acc.results ++ dres,
    total_urls := acc.total_urls + nUrls,
    successful := acc.successful + dsucc,
    failed := acc.failed + dfail,
    total_time_seconds := acc.total_time_seconds,
    proxy_types_used := acc.proxy_types_used ++ [c],
    python_overhead_seconds := acc.python_overhead_seconds,
    proxy_type_details :=
      acc.proxy_type_details ++ [(c, ⟨nUrls, dsucc, dfail, dts, pcount⟩)] }

/-- Reading the bridge result inside the per-class loop:
`results["results"]` must be a list to be extended onto the flat list, and
`results["successful"]`, `results["failed"]`, `results["total_time_seconds"]`
are used as numbers; any other shape raises an uncaught
`KeyError`/`TypeError`. -/
def mergeResults (acc : Aggregate) (c : String) (nUrls pcount : ℕ)
    (results : Json) : Except OrchError Aggregate :=
  match results.lookup "results" with
  | some (.arr rs) =>
    match numField results "successful" with
    | some s =>
      match numField results "failed" with
      | some f =>
        match numField results "total_time_seconds" with
        | some ts => .ok (accAdd acc c nUrls pcount rs s f ts)
        | none => .error (.pyTypeOrKeyError "total_time_seconds")
      | none => .error (.pyTypeOrKeyError "failed")
    | none => .error (.pyTypeOrKeyError "successful")
  | _ => .error (.pyTypeOrKeyError "results")

/-- One iteration of the per-class loop of `scrape_urls`: skip a class with
no URLs, otherwise resolve proxies, call the bridge, and merge its result. -/
def processClass (oenv : OrchEnv) (req : ScrapeRequest) (acc : Aggregate)
    (c : String) : Except OrchError Aggregate :=
  if req.urlsFor c = [] then .ok acc
  else
    match scrape_with_go oenv.eng (req.urlsFor c) (get_proxy_list oenv.getenv c) c
        req.timeout req.max_retries with
    | .error e => .error (.bridge e)
    | .ok results =>
      mergeResults acc c (req.urlsFor c).length (get_proxy_list oenv.getenv c).length results

/-- The epilogue of `scrape_urls`: record the measured total wall-clock time
and compute `python_overhead_seconds = max(0, total_time - go_time)` where
`go_time` sums the per-class engine-reported times. -/
def finalize (total_time : ℚ) (acc : Aggregate) : Aggregate :=
  { acc with total_time_seconds := total_time,
             python_overhead_seconds :=
               max 0 (total_time -
                 (acc.proxy_type_details.map (fun d => d.2.time_seconds)).sum) }

/-- The `/scrape` orchestration `scrape_urls` on an already validated
request: fold the per-class loop over the fixed class order, then finalize
timing. -/
def scrape_urls (oenv : OrchEnv) (req : ScrapeRequest) : Except OrchError Aggregate :=
  (List.foldlM (processClass oenv req) initAgg scrapeClasses).map (finalize oenv.total_time)

/-- A failure surfaced to the request boundary: a pydantic `ValidationError`
(raised before the handler body runs) or an orchestration failure. -/
inductive RequestError where
  | validation (errs : List FieldError)
  | orch (e : OrchError)

/-- The whole request path: pydantic validation of the request body, then
the orchestration. -/
def handle_scrape (oenv : OrchEnv) (req : ScrapeRequest) : Except RequestError Aggregate :=
  match validate req with
  | [] => (scrape_urls oenv req).mapError .orch
  | e :: rest => .error (.validation (e :: rest))

/-! ### Engine-output conformance predicates

The engine is an external collaborator; the spec's §6 contract requires its
zero-exit output to be a schema-conformant document.  The predicates below
state the parts of that contract that the aggregation claims rely on, as
executable `Bool` checks over the parametric engine behaviour. -/

/-- The shape the orchestrator needs a passed-through engine output to have
in order to read it without raising: the three keys the bridge logs, plus
numeric `successful`/`failed`/`total_time_seconds` and a list under
`results`. -/
def outputWellFormed (j : Json) : Bool :=
  (j.lookup "total").isSome && (numField j "successful").isSome &&
    (numField j "failed").isSome && (numField j "total_time_seconds").isSome &&
    (match j.lookup "results" with | some (.arr _) => true | _ => false)

/-- Engine-reported counts are consistent with the job size:
`successful + failed` equals the number of URLs submitted. -/
def outputTotalsOk (n : ℕ) (j : Json) : Bool :=
  match numField j "successful", numField j "failed" with
  | some s, some f => s + f == (n : ℚ)
  | _, _ => false

/-- The engine output's `results` list has exactly one record per submitted
URL, in submission order (each record's `url` field matches). -/
def outputOrderOk (urls : List String) (j : Json) : Bool :=
  match j.lookup "results" with
  | some (.arr rs) =>
    rs.length == urls.length &&
      (rs.zip urls).all (fun p =>
        match p.1.lookup "url" with
        | some (.str u) => u == p.2
        | _ => false)
  | _ => false

/-- For one class: either the class is not populated, or the engine run for
its job exits non-zero (a degraded branch the bridge synthesizes itself), or
its output fails JSON decoding (likewise degraded), or the decoded output is
well formed and passes the given check. -/
def classEngineOk (oenv : OrchEnv) (req : ScrapeRequest)
    (check : List String → Json → Bool) (c : String) : Bool :=
  let urls := req.urlsFor c
  urls.isEmpty ||
    (let run := oenv.eng.engine
        (buildCmd urls (get_proxy_list oenv.getenv c) c req.timeout req.max_retries)
     !(run.exitCode == 0) ||
       match oenv.eng.parse run.stdoutText with
       | .error _ => true
       | .ok j => outputWellFormed j && check urls j)

/-- Engine conformance needed for the totals invariants (claim C1). -/
def engineTotalsOk (oenv : OrchEnv) (req : ScrapeRequest) : Bool :=
  scrapeClasses.all (classEngineOk oenv req (fun urls j => outputTotalsOk urls.length j))

/-- Engine conformance needed for the one-result-per-URL ordering property
(claim C5). -/
def engineOrderOk (oenv : OrchEnv) (req : ScrapeRequest) : Bool :=
  scrapeClasses.all (classEngineOk oenv req outputOrderOk)

/-- Whether an `Except` value is a success (no exception escaped). -/
def exceptIsOk : Except BridgeError Json → Bool
  | .ok _ => true
  | .error _ => false

/-! ### Stated properties

One `Prop`-valued definition per claim about the embedded code, so that each
claim's theorem instantiates a named property. -/

/-- Claim C10: calling the bridge with an empty URL list returns the zero
result for any environment — in particular for environments where the engine
executable is absent — without consulting the filesystem or the engine. -/
def EmptyUrlsSpec : Prop :=
  ∀ (env : EngineEnv) (proxies : List String) (pt : String) (t r : ℤ),
    ∃ j, scrape_with_go env [] proxies pt t r = .ok j
      ∧ j.lookup "results" = some (.arr [])
      ∧ j.lookup "total" = some (.num 0)
      ∧ j.lookup "successful" = some (.num 0)
      ∧ j.lookup "failed" = some (.num 0)
      ∧ j.lookup "total_time_seconds" = some (.num 0)
      ∧ j.lookup "proxy_type_used" = some (.str pt)

/-- Claim C9: proxy resolution is exactly split-on-comma, strip, discard
blanks of the class's configuration string; an absent configuration yields
`[]`; an empty proxy list leaves the command without a `-proxies` argument
and the engine is still invoked. -/
def ProxyResolutionSpec : Prop :=
  (∀ (getenv : String → Option String) (pt : String),
      get_proxy_list getenv pt
        = ((strSplitComma ((getenv (proxiesEnvVar pt)).getD "")).map pyStrip).filter
            (fun p => p ≠ ""))
  ∧ (∀ (getenv : String → Option String) (pt : String),
      getenv (proxiesEnvVar pt) = none → get_proxy_list getenv pt = [])
  ∧ (∀ (urls : List String) (pt : String) (t r : ℤ),
      buildCmd urls [] pt t r
        = [go_scraper_path, "-urls", joinComma urls, "-proxy-type", pt,
           "-timeout", toString t, "-max-retries", toString r])
  ∧ (∀ (env : EngineEnv) (urls : List String) (pt : String) (t r : ℤ),
      urls ≠ [] → env.fs.goScraperExists = true →
        scrape_with_go env urls [] pt t r
          = engineStep env (buildCmd urls [] pt t r) urls pt)

/-- Claim C2: the result returned by the bridge when the engine process for a
job exits non-zero — one synthesized URL result per URL with success `false`,
the `EngineExecutionFailed` error, a diagnostic containing stdout, stderr and
the invoked command, zero attempts, the measured elapsed time apportioned
evenly, and class totals `successful = 0`, `failed =` job size. -/
def ExecFailedSpec (env : EngineEnv) (urls proxies : List String) (pt : String)
    (t r : ℤ) : Prop :=
  ∃ cmd run j rs,
    cmd = buildCmd urls proxies pt t r
    ∧ run = env.engine cmd
    ∧ scrape_with_go env urls proxies pt t r = .ok j
    ∧ j.lookup "results" = some (.arr rs)
    ∧ rs.length = urls.length
    ∧ (∀ res ∈ rs,
        res.lookup "success" = some (.jbool false)
        ∧ res.lookup "error" = some (.str (engineExecutionFailedError run.exitCode))
        ∧ res.lookup "attempts_made" = some (.num 0)
        ∧ res.lookup "elapsed_seconds" = some (.num (run.elapsed / (urls.length : ℚ)))
        ∧ (∃ d, res.lookup "detailed_error" = some (.str d)
            ∧ strContains d run.stdoutText = true
            ∧ strContains d run.stderrText = true
            ∧ strContains d (joinSpace cmd) = true))
    ∧ j.lookup "successful" = some (.num 0)
    ∧ j.lookup "failed" = some (.num (urls.length : ℚ))
    ∧ j.lookup "total" = some (.num (urls.length : ℚ))
    ∧ j.lookup "total_time_seconds" = some (.num run.elapsed)

/-- Claim C4 (amended): the result returned by the bridge when the engine
exits zero but its output fails JSON decoding — one synthesized URL result
per URL with the `EngineOutputMalformed` error, success `false`, zero
attempts, elapsed apportioned evenly, and a diagnostic containing the parse
error and a preview holding at most 1000 characters of the raw output. -/
def MalformedOutputSpec (env : EngineEnv) (urls proxies : List String) (pt : String)
    (t r : ℤ) (perr : String) : Prop :=
  ∃ cmd run j rs,
    cmd = buildCmd urls proxies pt t r
    ∧ run = env.engine cmd
    ∧ scrape_with_go env urls proxies pt t r = .ok j
    ∧ j.lookup "results" = some (.arr rs)
    ∧ rs.length = urls.length
    ∧ (∀ res ∈ rs,
        res.lookup "success" = some (.jbool false)
        ∧ res.lookup "error" = some (.str engineOutputMalformedError)
        ∧ res.lookup "attempts_made" = some (.num 0)
        ∧ res.lookup "elapsed_seconds" = some (.num (run.elapsed / (urls.length : ℚ)))
        ∧ (∃ d, res.lookup "detailed_error" = some (.str d)
            ∧ strContains d perr = true
            ∧ strContains d (stdoutRawPreview run.stdoutText) = true
            ∧ (stdoutRawPreview run.stdoutText).data.length ≤ 1000))
    ∧ j.lookup "successful" = some (.num 0)
    ∧ j.lookup "failed" = some (.num (urls.length : ℚ))

/-- The keys a zero-exit parsed output must carry for the bridge's own field
reads to succeed. -/
def hasSchemaKeys (j : Json) : Bool :=
  (j.lookup "total").isSome && (j.lookup "successful").isSome &&
    (j.lookup "failed").isSome

/-- Claim C6 (amended): for a non-empty job with the executable present, any
engine outcome that is a non-zero exit, an undecodable output, or a decodable
output carrying the logged keys, makes the bridge return a result rather than
raise; and in the two degraded branches the result carries one success-false
record per URL. -/
def DegradedNoRaiseSpec (env : EngineEnv) (urls proxies : List String)
    (pt : String) (t r : ℤ) : Prop :=
  ∃ res, scrape_with_go env urls proxies pt t r = .ok res
    ∧ (((env.engine (buildCmd urls proxies pt t r)).exitCode ≠ 0
          ∨ (∃ e, env.parse (env.engine (buildCmd urls proxies pt t r)).stdoutText
                = .error e)) →
        ∃ rs, res.lookup "results" = some (.arr rs)
          ∧ rs.length = urls.length
          ∧ ∀ x ∈ rs, x.lookup "success" = some (.jbool false))

/-- The acceptance condition of the request validator. -/
def ValidCond (r : ScrapeRequest) : Prop :=
  1 ≤ r.timeout ∧ r.timeout ≤ 60 ∧ 0 ≤ r.max_retries ∧ r.max_retries ≤ 10
    ∧ ¬(r.datacenter = [] ∧ r.residential = [] ∧ r.mobile = [])
    ∧ ∀ u ∈ r.datacenter ++ r.residential ++ r.mobile, isValidUrl u = true

/-- Claim C7 (amended): the validator accepts exactly under `ValidCond`; each
violation contributes an error naming the violated field (and, for URL-scheme
violations, also the offending value); and a rejected request fails before
any proxy resolution or engine invocation, for every environment. -/
def ValidatorSpec (r : ScrapeRequest) : Prop :=
  (validate r = [] ↔ ValidCond r)
  ∧ (r.timeout < 1 →
      FieldError.mk "timeout" "Timeout must be at least 1 second" ∈ validate r)
  ∧ (60 < r.timeout →
      FieldError.mk "timeout" "Timeout cannot exceed 60 seconds" ∈ validate r)
  ∧ (r.max_retries < 0 →
      FieldError.mk "max_retries" "Max retries cannot be negative" ∈ validate r)
  ∧ (10 < r.max_retries →
      FieldError.mk "max_retries" "Max retries cannot exceed 10" ∈ validate r)
  ∧ (r.datacenter = [] → r.residential = [] → r.mobile = [] →
      FieldError.mk "__root__" "At least one URL list must be provided" ∈ validate r)
  ∧ (∀ field url, firstBadUrl r = some (field, url) →
      FieldError.mk "__root__" (urlSchemeError field url) ∈ validate r
        ∧ strContains (urlSchemeError field url) url = true
        ∧ strContains (urlSchemeError field url) field = true)
  ∧ (validate r ≠ [] → ∀ oenv : OrchEnv,
      handle_scrape oenv r = .error (.validation (validate r)))

/-- Claim C1: the totals of a completed aggregate — overall
`successful + failed = total_urls`, the total counts every submitted URL, and
each per-class detail satisfies `successful + failed = urls_count`. -/
def TotalsInvariantSpec (req : ScrapeRequest) (agg : Aggregate) : Prop :=
  agg.successful + agg.failed = (agg.total_urls : ℚ)
    ∧ agg.total_urls
        = req.datacenter.length + req.residential.length + req.mobile.length
    ∧ ∀ d ∈ agg.proxy_type_details, d.2.successful + d.2.failed = (d.2.urls_count : ℚ)

/-- Claim C5: the flat results sequence carries exactly one record per
submitted URL, grouped by class in the fixed enumeration order and preserving
submission order within each class. -/
def ResultsOrderSpec (req : ScrapeRequest) (agg : Aggregate) : Prop :=
  agg.results.map (fun j => j.lookup "url")
    = (req.datacenter ++ req.residential ++ req.mobile).map (fun u => some (Json.str u))

/-- Claim C8: the reported overhead is the clamped difference between the
measured wall-clock time and the summed engine-reported per-class times, and
is therefore non-negative. -/
def OverheadSpec (agg : Aggregate) : Prop :=
  agg.python_overhead_seconds
      = max 0 (agg.total_time_seconds
          - (agg.proxy_type_details.map (fun d => d.2.time_seconds)).sum)
    ∧ 0 ≤ agg.python_overhead_seconds

/-! ### Concrete environments and requests used by witnesses and
counterexamples -/

/-- An environment whose engine always exits with code 1. -/
def envExitNonzero : EngineEnv :=
  { fs := ⟨true, true⟩,
    engine := fun _ => ⟨1, "engine crashed", "bad flag", 3⟩,
    parse := fun _ => .error "unreachable" }

/-- An environment whose engine exits zero with output that fails JSON
decoding. -/
def envParseFails : EngineEnv :=
  { fs := ⟨true, true⟩,
    engine := fun _ => ⟨0, "not json", "", 2⟩,
    parse := fun _ => .error "Expecting value: line 1 column 1" }

/-- An environment whose engine exits zero and prints an empty JSON object:
the output decodes but lacks every schema key. -/
def envMissingKeys : EngineEnv :=
  { fs := ⟨true, true⟩,
    engine := fun _ => ⟨0, "\x7b\x7d", "", 1⟩,
    parse := fun s => if s = "\x7b\x7d" then .ok (.obj []) else .error "invalid JSON" }

/-- An environment where the engine executable file exists but is not
invocable. -/
def envNotExecutable : EngineEnv :=
  { fs := ⟨true, false⟩,
    engine := fun _ => ⟨1, "", "", 0⟩,
    parse := fun _ => .error "unreachable" }

/-- An environment where the engine executable is missing. -/
def envMissingExe : EngineEnv :=
  { fs := ⟨false, true⟩,
    engine := fun _ => ⟨0, "", "", 0⟩,
    parse := fun _ => .error "unreachable" }

/-- An orchestration environment over the always-crashing engine, with no
proxy configuration and a measured total time of 1 second. -/
def oenvExitNonzero : OrchEnv := ⟨envExitNonzero, fun _ => none, 1⟩

/-- An orchestration environment with the executable missing. -/
def oenvMissingExe : OrchEnv := ⟨envMissingExe, fun _ => none, 0⟩

/-- A request with a single datacenter URL and the source's defaults. -/
def reqOneUrl : ScrapeRequest := { datacenter := ["http://a.example"] }

/-- A request that is valid except for a zero timeout. -/
def reqBadTimeout : ScrapeRequest := { datacenter := ["http://a.example"], timeout := 0 }

/-- A request with no URLs in any class. -/
def reqNoUrls : ScrapeRequest := {}

/-! ## Theorems

First some helper lemmas about the substring check and about the branches of
the bridge, then one theorem per claim (with witnesses and counterexamples
where needed). -/

theorem startsWithChars_self_append (p b : List Char) :
    startsWithChars (p ++ b) p = true := by
  induction p with
  | nil => cases b <;> rfl
  | cons c cs ih => simp [startsWithChars, ih]

theorem containsChars_here (p b : List Char) : containsChars p (p ++ b) = true := by
  cases p with
  | nil => cases b <;> rfl
  | cons c cs =>
    simp only [List.cons_append, containsChars, Bool.or_eq_true]
    exact Or.inl (startsWithChars_self_append (c :: cs) b)

theorem containsChars_cons (p : List Char) (c : Char) (s : List Char)
    (h : containsChars p s = true) : containsChars p (c :: s) = true := by
  simp [containsChars, h]

theorem containsChars_append_left (a : List Char) {p s : List Char}
    (h : containsChars p s = true) : containsChars p (a ++ s) = true := by
  induction a with
  | nil => exact h
  | cons x xs ih => exact containsChars_cons _ _ _ ih

theorem containsChars_self (p : List Char) : containsChars p p = true := by
  have h := containsChars_here p []
  rwa [List.append_nil] at h

theorem scrape_with_go_run (env : EngineEnv) (urls proxies : List String)
    (pt : String) (t r : ℤ) (hne : urls ≠ []) (hfs : env.fs.goScraperExists = true) :
    scrape_with_go env urls proxies pt t r
      = engineStep env (buildCmd urls proxies pt t r) urls pt := by
  unfold scrape_with_go
  rw [if_neg hne, if_neg (by simp [hfs])]

theorem engineStep_nonzero (env : EngineEnv) (cmd urls : List String) (pt : String)
    (h : (env.engine cmd).exitCode ≠ 0) :
    engineStep env cmd urls pt = .ok (execFailedJson (env.engine cmd) cmd urls pt) := by
  unfold engineStep
  rw [if_neg h]

theorem engineStep_parse_error (env : EngineEnv) (cmd urls : List String)
    (pt : String) (e : String) (h0 : (env.engine cmd).exitCode = 0)
    (hp : env.parse (env.engine cmd).stdoutText = .error e) :
    engineStep env cmd urls pt = .ok (malformedJson (env.engine cmd) e urls pt) := by
  unfold engineStep
  rw [if_pos h0, hp]

theorem engineStep_keys_present (env : EngineEnv) (cmd urls : List String)
    (pt : String) (j tv sv fv : Json) (h0 : (env.engine cmd).exitCode = 0)
    (hp : env.parse (env.engine cmd).stdoutText = .ok j)
    (ht : j.lookup "total" = some tv) (hs : j.lookup "successful" = some sv)
    (hf : j.lookup "failed" = some fv) :
    engineStep env cmd urls pt = .ok j := by
  unfold engineStep
  rw [if_pos h0, hp]
  simp [ht, hs, hf]

/-- Claim C10: a bridge call with an empty URL list returns the zero-totals
result (empty results, total/successful/failed all 0, zero elapsed) for every
environment — so no filesystem check and no engine invocation takes place,
even when the executable is absent. -/
theorem bridge_empty_urls_short_circuit : EmptyUrlsSpec := by
  intro env proxies pt t r
  exact ⟨emptyResultJson pt, rfl, rfl, rfl, rfl, rfl, rfl, rfl⟩

/-- Claim C9: proxy resolution returns the comma-split, whitespace-stripped,
blank-discarded list of the class's configuration string; an absent
configuration yields the empty list; and an empty proxy list is non-fatal —
the engine is still invoked, on a command carrying no `-proxies` argument. -/
theorem proxy_resolution_spec : ProxyResolutionSpec := by
  refine ⟨?_, ?_, ?_, ?_⟩
  · intro g pt
    unfold get_proxy_list
    by_cases h : (g (proxiesEnvVar pt)).getD "" = ""
    · rw [h]
      decide
    · rw [if_neg h]
  · intro g pt h
    unfold get_proxy_list
    rw [h]
    decide
  · intro urls pt t r
    rfl
  · intro env urls pt t r hne hfs
    exact scrape_with_go_run env urls [] pt t r hne hfs

/-- Claim C2: when the engine process for a non-empty job exits non-zero the
request is not aborted; the bridge returns one URLResult per URL with
success=false, the EngineExecutionFailed error, a diagnostic containing the
captured stdout, stderr and the invoked command, attempts_made=0 and the
measured elapsed time divided evenly, with class totals successful=0 and
failed equal to the job size. -/
theorem bridge_nonzero_exit_degrades (env : EngineEnv) (urls proxies : List String)
    (pt : String) (t r : ℤ) (hne : urls ≠ [])
    (hfs : env.fs.goScraperExists = true)
    (hcode : (env.engine (buildCmd urls proxies pt t r)).exitCode ≠ 0) :
    ExecFailedSpec env urls proxies pt t r := by
  refine ⟨buildCmd urls proxies pt t r, env.engine (buildCmd urls proxies pt t r),
    execFailedJson (env.engine (buildCmd urls proxies pt t r))
      (buildCmd urls proxies pt t r) urls pt,
    urls.map (perUrlExecFailed (env.engine (buildCmd urls proxies pt t r))
      (buildCmd urls proxies pt t r) pt urls.length),
    rfl, rfl, ?_, rfl, by simp, ?_, rfl, rfl, rfl, rfl⟩
  · rw [scrape_with_go_run env urls proxies pt t r hne hfs,
      engineStep_nonzero env _ urls pt hcode]
  · intro res hres
    rw [List.mem_map] at hres
    obtain ⟨u, _, rfl⟩ := hres
    refine ⟨rfl, rfl, rfl, rfl, engineExecutionFailedDetail _ _, rfl, ?_, ?_, ?_⟩
    all_goals
      unfold strContains engineExecutionFailedDetail
      simp only [String.data_append, List.append_assoc]
      repeat
        first
        | exact containsChars_here _ _
        | exact containsChars_self _
        | apply containsChars_append_left

/-- Witness for claim C2, over the concrete always-crashing engine. -/
theorem bridge_nonzero_exit_degrades_witness :
    (["http://a.example"] : List String) ≠ []
    ∧ envExitNonzero.fs.goScraperExists = true
    ∧ (envExitNonzero.engine (buildCmd ["http://a.example"] [] "datacenter" 5 1)).exitCode ≠ 0
    ∧ ExecFailedSpec envExitNonzero ["http://a.example"] [] "datacenter" 5 1 :=
  ⟨by decide, rfl, by decide,
    bridge_nonzero_exit_degrades envExitNonzero ["http://a.example"] [] "datacenter" 5 1
      (by decide) rfl (by decide)⟩

/-- Claim C4 (amended): when the engine exits zero but its output fails JSON
decoding, the bridge returns one URLResult per URL with the
EngineOutputMalformed error, success=false, attempts_made=0, elapsed divided
evenly, and a diagnostic containing the parse error and a preview holding at
most 1000 characters of the raw output.  (Output that decodes as JSON but
lacks the schema keys instead raises an uncaught error; see the
counterexample.) -/
theorem bridge_json_decode_failure_degrades (env : EngineEnv)
    (urls proxies : List String) (pt : String) (t r : ℤ) (perr : String)
    (hne : urls ≠ []) (hfs : env.fs.goScraperExists = true)
    (hzero : (env.engine (buildCmd urls proxies pt t r)).exitCode = 0)
    (hparse : env.parse (env.engine (buildCmd urls proxies pt t r)).stdoutText
      = .error perr) :
    MalformedOutputSpec env urls proxies pt t r perr := by
  refine ⟨buildCmd urls proxies pt t r, env.engine (buildCmd urls proxies pt t r),
    malformedJson (env.engine (buildCmd urls proxies pt t r)) perr urls pt,
    urls.map (perUrlMalformed (env.engine (buildCmd urls proxies pt t r)) perr pt
      urls.length),
    rfl, rfl, ?_, rfl, by simp, ?_, rfl, rfl⟩
  · rw [scrape_with_go_run env urls proxies pt t r hne hfs,
      engineStep_parse_error env _ urls pt perr hzero hparse]
  · intro res hres
    rw [List.mem_map] at hres
    obtain ⟨u, _, rfl⟩ := hres
    refine ⟨rfl, rfl, rfl, rfl, malformedDetail perr _, rfl, ?_, ?_, ?_⟩
    · unfold strContains malformedDetail
      simp only [String.data_append, List.append_assoc]
      apply containsChars_append_left
      exact containsChars_here _ _
    · unfold strContains malformedDetail stdoutSnippet
      by_cases h :
          1000 < (env.engine (buildCmd urls proxies pt t r)).stdoutText.data.length
      · rw [if_pos h]
        simp only [String.data_append, List.append_assoc]
        repeat
          first
          | exact containsChars_here _ _
          | exact containsChars_self _
          | apply containsChars_append_left
      · rw [if_neg h]
        have hpre : stdoutRawPreview (env.engine (buildCmd urls proxies pt t r)).stdoutText
            = (env.engine (buildCmd urls proxies pt t r)).stdoutText := by
          unfold stdoutRawPreview
          rw [List.take_of_length_le (le_of_not_lt h)]
        rw [hpre]
        simp only [String.data_append, List.append_assoc]
        repeat
          first
          | exact containsChars_here _ _
          | exact containsChars_self _
          | apply containsChars_append_left
    · show ((env.engine (buildCmd urls proxies pt t r)).stdoutText.data.take 1000).length
        ≤ 1000
      rw [List.length_take]
      exact min_le_left _ _

/-- Witness for claim C4 (amended), over the concrete engine whose output
fails JSON decoding. -/
theorem bridge_json_decode_failure_degrades_witness :
    (envParseFails.engine (buildCmd ["http://a.example"] [] "datacenter" 5 1)).exitCode = 0
    ∧ envParseFails.parse
        (envParseFails.engine
          (buildCmd ["http://a.example"] [] "datacenter" 5 1)).stdoutText
        = .error "Expecting value: line 1 column 1"
    ∧ MalformedOutputSpec envParseFails ["http://a.example"] [] "datacenter" 5 1
        "Expecting value: line 1 column 1" :=
  ⟨rfl, rfl,
    bridge_json_decode_failure_degrades envParseFails ["http://a.example"] []
      "datacenter" 5 1 "Expecting value: line 1 column 1" (by decide) rfl rfl rfl⟩

/-- Claim C4 counterexample: the claim as stated covers every zero-exit
output that fails the result schema, but an output that decodes as JSON while
lacking the schema keys — here the empty object — makes the bridge raise an
uncaught KeyError instead of returning EngineOutputMalformed results. -/
theorem bridge_schema_mismatch_raises :
    envMissingKeys.parse "\x7b\x7d" = .ok (.obj [])
    ∧ (Json.obj []).lookup "total" = none
    ∧ scrape_with_go envMissingKeys ["http://b.example"] [] "residential" 5 1
        = .error (.uncaughtKeyError "total") :=
  ⟨rfl, rfl, rfl⟩

theorem execFailed_populated (run : EngineRun) (cmd urls : List String) (pt : String) :
    ∃ rs, (execFailedJson run cmd urls pt).lookup "results" = some (.arr rs)
      ∧ rs.length = urls.length
      ∧ ∀ x ∈ rs, x.lookup "success" = some (.jbool false) := by
  refine ⟨urls.map (perUrlExecFailed run cmd pt urls.length), rfl, by simp, ?_⟩
  intro x hx
  rw [List.mem_map] at hx
  obtain ⟨u, _, rfl⟩ := hx
  rfl

theorem malformed_populated (run : EngineRun) (e : String) (urls : List String)
    (pt : String) :
    ∃ rs, (malformedJson run e urls pt).lookup "results" = some (.arr rs)
      ∧ rs.length = urls.length
      ∧ ∀ x ∈ rs, x.lookup "success" = some (.jbool false) := by
  refine ⟨urls.map (perUrlMalformed run e pt urls.length), rfl, by simp, ?_⟩
  intro x hx
  rw [List.mem_map] at hx
  obtain ⟨u, _, rfl⟩ := hx
  rfl

/-- Claim C6 (amended): for a non-empty job with the executable present, the
bridge returns a result (never raises) on a non-zero exit, on an undecodable
output, and on a decodable output carrying the logged schema keys; in the two
degraded branches the result holds one success-false record per URL (the
per-URL elapsed division being well defined since the job is non-empty).
Decodable output lacking the schema keys raises; see the counterexample. -/
theorem bridge_degraded_runs_return (env : EngineEnv) (urls proxies : List String)
    (pt : String) (t r : ℤ) (hne : urls ≠ [])
    (hfs : env.fs.goScraperExists = true)
    (hout : (env.engine (buildCmd urls proxies pt t r)).exitCode ≠ 0
      ∨ (∃ e, env.parse (env.engine (buildCmd urls proxies pt t r)).stdoutText
            = .error e)
      ∨ (∃ j, env.parse (env.engine (buildCmd urls proxies pt t r)).stdoutText
            = .ok j ∧ hasSchemaKeys j = true)) :
    DegradedNoRaiseSpec env urls proxies pt t r := by
  rcases hout with hcode | ⟨e, hp⟩ | ⟨j, hp, hk⟩
  · refine ⟨execFailedJson (env.engine (buildCmd urls proxies pt t r))
      (buildCmd urls proxies pt t r) urls pt, ?_, fun _ => ?_⟩
    · rw [scrape_with_go_run env urls proxies pt t r hne hfs,
        engineStep_nonzero env _ urls pt hcode]
    · exact execFailed_populated _ _ _ _
  · by_cases h0 : (env.engine (buildCmd urls proxies pt t r)).exitCode = 0
    · refine ⟨malformedJson (env.engine (buildCmd urls proxies pt t r)) e urls pt,
        ?_, fun _ => ?_⟩
      · rw [scrape_with_go_run env urls proxies pt t r hne hfs,
          engineStep_parse_error env _ urls pt e h0 hp]
      · exact malformed_populated _ _ _ _
    · refine ⟨execFailedJson (env.engine (buildCmd urls proxies pt t r))
        (buildCmd urls proxies pt t r) urls pt, ?_, fun _ => ?_⟩
      · rw [scrape_with_go_run env urls proxies pt t r hne hfs,
          engineStep_nonzero env _ urls pt h0]
      · exact execFailed_populated _ _ _ _
  · by_cases h0 : (env.engine (buildCmd urls proxies pt t r)).exitCode = 0
    · simp only [hasSchemaKeys, Bool.and_eq_true, Option.isSome_iff_exists] at hk
      obtain ⟨⟨⟨tv, ht⟩, sv, hs⟩, fv, hf⟩ := hk
      refine ⟨j, ?_, ?_⟩
      · rw [scrape_with_go_run env urls proxies pt t r hne hfs,
          engineStep_keys_present env _ urls pt j tv sv fv h0 hp ht hs hf]
      · intro habs
        rcases habs with hc | ⟨e2, he⟩
        · exact absurd h0 hc
        · rw [hp] at he
          exact Except.noConfusion he
    · refine ⟨execFailedJson (env.engine (buildCmd urls proxies pt t r))
        (buildCmd urls proxies pt t r) urls pt, ?_, fun _ => ?_⟩
      · rw [scrape_with_go_run env urls proxies pt t r hne hfs,
          engineStep_nonzero env _ urls pt h0]
      · exact execFailed_populated _ _ _ _

/-- Witness for claim C6 (amended), over the concrete engine whose output
fails JSON decoding. -/
theorem bridge_degraded_runs_return_witness :
    (["http://a.example"] : List String) ≠ []
    ∧ envParseFails.fs.goScraperExists = true
    ∧ (∃ e, envParseFails.parse
        (envParseFails.engine
          (buildCmd ["http://a.example"] [] "datacenter" 5 1)).stdoutText
        = .error e)
    ∧ DegradedNoRaiseSpec envParseFails ["http://a.example"] [] "datacenter" 5 1 :=
  ⟨by decide, rfl, ⟨"Expecting value: line 1 column 1", rfl⟩,
    bridge_degraded_runs_return envParseFails ["http://a.example"] [] "datacenter" 5 1
      (by decide) rfl
      (Or.inr (Or.inl ⟨"Expecting value: line 1 column 1", rfl⟩))⟩

/-- Claim C6 counterexample: a degraded outcome on which the bridge does
raise — the engine exits zero and prints an empty JSON object, so the
bridge's own read of `result["total"]` raises an uncaught KeyError to its
caller instead of returning a populated result. -/
theorem bridge_missing_keys_raises :
    envMissingKeys.fs.goScraperExists = true
    ∧ (envMissingKeys.engine (buildCmd ["http://a.example"] [] "datacenter" 5 1)).exitCode = 0
    ∧ scrape_with_go envMissingKeys ["http://a.example"] [] "datacenter" 5 1
        = .error (.uncaughtKeyError "total") :=
  ⟨rfl, rfl, rfl⟩

/-- Claim C3 counterexample: with the executable present but not invocable,
the bridge does not fail with EngineUnavailable — it repairs the permissions,
invokes the engine and returns a (degraded) result. -/
theorem bridge_not_executable_still_runs :
    envNotExecutable.fs.goScraperExists = true
    ∧ envNotExecutable.fs.goScraperExecutable = false
    ∧ exceptIsOk
        (scrape_with_go envNotExecutable ["http://a.example"] [] "datacenter" 5 1)
        = true :=
  ⟨rfl, rfl, rfl⟩

/-! ### Validation lemmas (claim C7) -/

theorem timeoutErrors_eq_nil (v : ℤ) : timeoutErrors v = [] ↔ 1 ≤ v ∧ v ≤ 60 := by
  unfold timeoutErrors
  split_ifs with h1 h2 <;> simp <;> omega

theorem maxRetriesErrors_eq_nil (v : ℤ) :
    maxRetriesErrors v = [] ↔ 0 ≤ v ∧ v ≤ 10 := by
  unfold maxRetriesErrors
  split_ifs with h1 h2 <;> simp <;> omega

theorem firstBadUrl_none_iff (r : ScrapeRequest) :
    firstBadUrl r = none ↔
      (r.datacenter.find? (fun u => !isValidUrl u) = none
        ∧ r.residential.find? (fun u => !isValidUrl u) = none
        ∧ r.mobile.find? (fun u => !isValidUrl u) = none) := by
  unfold firstBadUrl
  cases h1 : r.datacenter.find? (fun u => !isValidUrl u) <;>
    cases h2 : r.residential.find? (fun u => !isValidUrl u) <;>
      cases h3 : r.mobile.find? (fun u => !isValidUrl u) <;> simp

theorem firstBadUrl_some_mem (r : ScrapeRequest) (f u : String)
    (h : firstBadUrl r = some (f, u)) :
    u ∈ r.datacenter ++ r.residential ++ r.mobile ∧ isValidUrl u = false := by
  unfold firstBadUrl at h
  cases h1 : r.datacenter.find? (fun x => !isValidUrl x) with
  | some u1 =>
    rw [h1] at h
    simp only [Option.some.injEq, Prod.mk.injEq] at h
    obtain ⟨-, rfl⟩ := h
    refine ⟨List.mem_append_left _ (List.mem_append_left _
      (List.mem_of_find?_eq_some h1)), ?_⟩
    have := List.find?_some h1
    simpa using this
  | none =>
    rw [h1] at h
    cases h2 : r.residential.find? (fun x => !isValidUrl x) with
    | some u2 =>
      rw [h2] at h
      simp only [Option.some.injEq, Prod.mk.injEq] at h
      obtain ⟨-, rfl⟩ := h
      refine ⟨List.mem_append_left _ (List.mem_append_right _
        (List.mem_of_find?_eq_some h2)), ?_⟩
      have := List.find?_some h2
      simpa using this
    | none =>
      rw [h2] at h
      cases h3 : r.mobile.find? (fun x => !isValidUrl x) with
      | some u3 =>
        rw [h3] at h
        simp only [Option.some.injEq, Prod.mk.injEq] at h
        obtain ⟨-, rfl⟩ := h
        refine ⟨List.mem_append_right _ (List.mem_of_find?_eq_some h3), ?_⟩
        have := List.find?_some h3
        simpa using this
      | none =>
        rw [h3] at h
        exact Option.noConfusion h

theorem rootErrors_eq_nil (r : ScrapeRequest) :
    rootErrors r = [] ↔
      (¬(r.datacenter = [] ∧ r.residential = [] ∧ r.mobile = [])
        ∧ ∀ u ∈ r.datacenter ++ r.residential ++ r.mobile, isValidUrl u = true) := by
  unfold rootErrors
  split_ifs with h
  · simp [h]
  · cases hb : firstBadUrl r with
    | some p =>
      obtain ⟨f, u⟩ := p
      obtain ⟨hm, hv⟩ := firstBadUrl_some_mem r f u hb
      constructor
      · intro habs
        exact absurd habs (List.cons_ne_nil _ _)
      · rintro ⟨-, hall⟩
        have hgood := hall u hm
        rw [hv] at hgood
        exact Bool.noConfusion hgood
    | none =>
      constructor
      · intro _
        refine ⟨h, ?_⟩
        rw [firstBadUrl_none_iff] at hb
        obtain ⟨h1, h2, h3⟩ := hb
        rw [List.find?_eq_none] at h1 h2 h3
        intro u hu
        rcases List.mem_append.mp hu with hu12 | hu3
        · rcases List.mem_append.mp hu12 with hu1 | hu2
          · have := h1 u hu1
            simpa using this
          · have := h2 u hu2
            simpa using this
        · have := h3 u hu3
          simpa using this
      · intro _
        rfl

theorem validate_eq_nil_iff (r : ScrapeRequest) : validate r = [] ↔ ValidCond r := by
  unfold validate ValidCond
  rw [List.append_eq_nil, List.append_eq_nil, timeoutErrors_eq_nil,
    maxRetriesErrors_eq_nil, rootErrors_eq_nil]
  tauto

/-- Claim C7 (amended): the validator accepts exactly when timeout is in
[1,60], max_retries is in [0,10], at least one class list is non-empty, and
every URL starts with http:// or https://; each violation contributes a
ValidationError naming the violated field — though the offending value is
named only for URL-scheme violations — and a rejected request fails before
any proxy resolution or engine invocation. -/
theorem validator_characterization (r : ScrapeRequest) : ValidatorSpec r := by
  refine ⟨validate_eq_nil_iff r, ?_, ?_, ?_, ?_, ?_, ?_, ?_⟩
  · intro h
    unfold validate timeoutErrors
    rw [if_pos h]
    exact List.mem_append_left _ (List.mem_append_left _ (List.mem_cons_self _ _))
  · intro h
    have h1 : ¬(r.timeout < 1) := by omega
    unfold validate timeoutErrors
    rw [if_neg h1, if_pos h]
    exact List.mem_append_left _ (List.mem_append_left _ (List.mem_cons_self _ _))
  · intro h
    unfold validate maxRetriesErrors
    rw [if_pos h]
    exact List.mem_append_left _ (List.mem_append_right _ (List.mem_cons_self _ _))
  · intro h
    have h1 : ¬(r.max_retries < 0) := by omega
    unfold validate maxRetriesErrors
    rw [if_neg h1, if_pos h]
    exact List.mem_append_left _ (List.mem_append_right _ (List.mem_cons_self _ _))
  · intro hd hr hm
    unfold validate rootErrors
    rw [if_pos ⟨hd, hr, hm⟩]
    exact List.mem_append_right _ (List.mem_cons_self _ _)
  · intro f u hb
    have hne : ¬(r.datacenter = [] ∧ r.residential = [] ∧ r.mobile = []) := by
      rintro ⟨hd, hr, hm⟩
      unfold firstBadUrl at hb
      rw [hd, hr, hm] at hb
      simp at hb
    refine ⟨?_, ?_, ?_⟩
    · unfold validate rootErrors
      rw [if_neg hne, hb]
      exact List.mem_append_right _ (List.mem_cons_self _ _)
    · unfold strContains urlSchemeError
      simp only [String.data_append, List.append_assoc]
      repeat
        first
        | exact containsChars_here _ _
        | exact containsChars_self _
        | apply containsChars_append_left
    · unfold strContains urlSchemeError
      simp only [String.data_append, List.append_assoc]
      repeat
        first
        | exact containsChars_here _ _
        | exact containsChars_self _
        | apply containsChars_append_left
  · intro hne oenv
    unfold handle_scrape
    cases hv : validate r with
    | nil => exact absurd hv hne
    | cons e rest => rfl

/-- Witness for claim C7 (amended), at a concrete rejected request. -/
theorem validator_characterization_witness : ValidatorSpec reqBadTimeout :=
  validator_characterization reqBadTimeout

/-- Claim C7 counterexample: a request with timeout 0 is rejected, but no
produced ValidationError mentions the offending value 0 anywhere in its field
location or message — the claim's "naming the specific violated field and
value" does not hold for the range checks. -/
theorem validator_value_not_named :
    validate reqBadTimeout
        = [FieldError.mk "timeout" "Timeout must be at least 1 second"]
    ∧ (validate reqBadTimeout).all
        (fun e => !(strContains (e.loc ++ e.msg) "0")) = true :=
  ⟨by decide, by decide⟩

/-! ### Orchestration fold lemmas -/

theorem foldlM_cons_eq (f : Aggregate → String → Except OrchError Aggregate)
    (acc : Aggregate) (c : String) (rest : List String) :
    List.foldlM f acc (c :: rest) = f acc c >>= fun a => List.foldlM f a rest := rfl

theorem except_bind_ok (a : Aggregate) (f : Aggregate → Except OrchError Aggregate) :
    ((Except.ok a : Except OrchError Aggregate) >>= f) = f a := rfl

theorem except_bind_error (E : OrchError) (f : Aggregate → Except OrchError Aggregate) :
    ((Except.error E : Except OrchError Aggregate) >>= f) = .error E := rfl

theorem processClass_skip (oenv : OrchEnv) (req : ScrapeRequest) (acc : Aggregate)
    (c : String) (h : req.urlsFor c = []) :
    processClass oenv req acc c = .ok acc := by
  unfold processClass
  rw [if_pos h]

theorem fold_aborts (oenv : OrchEnv) (req : ScrapeRequest) (E : OrchError)
    (cs : List String) (acc : Aggregate)
    (hper : ∀ acc2 c, c ∈ cs → req.urlsFor c ≠ [] →
      processClass oenv req acc2 c = .error E)
    (hx : ∃ c ∈ cs, req.urlsFor c ≠ []) :
    List.foldlM (processClass oenv req) acc cs = .error E := by
  induction cs generalizing acc with
  | nil =>
    obtain ⟨c, hc, _⟩ := hx
    exact absurd hc (List.not_mem_nil c)
  | cons c rest ih =>
    by_cases hc : req.urlsFor c = []
    · rw [foldlM_cons_eq, processClass_skip oenv req acc c hc, except_bind_ok]
      apply ih
      · intro acc2 c2 hc2 hne2
        exact hper acc2 c2 (List.mem_cons_of_mem c hc2) hne2
      · obtain ⟨c0, hc0, hne0⟩ := hx
        rcases List.mem_cons.mp hc0 with rfl | hmem
        · exact absurd hc hne0
        · exact ⟨c0, hmem, hne0⟩
    · rw [foldlM_cons_eq, hper acc c (List.mem_cons_self c rest) hc,
        except_bind_error]

/-- Claim C3 (amended): when the engine executable is missing, the bridge
fails immediately with the FileNotFoundError (the spec's EngineUnavailable)
before invoking the engine, synthesizes no per-URL results, and every
validated request aborts with that failure — no partial AggregateReport is
returned.  (A present but non-invocable executable does not trigger this
path: the source repairs the permissions and proceeds; see the
counterexample.) -/
theorem missing_executable_aborts (oenv : OrchEnv) (req : ScrapeRequest)
    (hval : validate req = []) (hmiss : oenv.eng.fs.goScraperExists = false) :
    scrape_urls oenv req = .error (.bridge (.fileNotFound engineNotFoundError)) := by
  obtain ⟨-, -, -, -, hpop, -⟩ := (validate_eq_nil_iff req).mp hval
  have hper : ∀ acc2 c, c ∈ scrapeClasses → req.urlsFor c ≠ [] →
      processClass oenv req acc2 c
        = .error (.bridge (.fileNotFound engineNotFoundError)) := by
    intro acc2 c _ hne
    unfold processClass
    rw [if_neg hne]
    have hb : scrape_with_go oenv.eng (req.urlsFor c) (get_proxy_list oenv.getenv c) c
        req.timeout req.max_retries = .error (.fileNotFound engineNotFoundError) := by
      unfold scrape_with_go
      rw [if_neg hne, if_pos hmiss]
    rw [hb]
  have hx : ∃ c ∈ scrapeClasses, req.urlsFor c ≠ [] := by
    by_cases hd : req.datacenter = []
    · by_cases hr : req.residential = []
      · have hm : req.mobile ≠ [] := fun hm => hpop ⟨hd, hr, hm⟩
        exact ⟨"mobile", by decide, hm⟩
      · exact ⟨"residential", by decide, hr⟩
    · exact ⟨"datacenter", by decide, hd⟩
  have hfold := fold_aborts oenv req (.bridge (.fileNotFound engineNotFoundError))
    scrapeClasses initAgg hper hx
  unfold scrape_urls
  rw [hfold]
  rfl

/-- Witness for claim C3 (amended), at a concrete validated request with the
executable missing. -/
theorem missing_executable_aborts_witness :
    validate reqOneUrl = []
    ∧ oenvMissingExe.eng.fs.goScraperExists = false
    ∧ scrape_urls oenvMissingExe reqOneUrl
        = .error (.bridge (.fileNotFound engineNotFoundError)) :=
  ⟨by decide, rfl, missing_executable_aborts oenvMissingExe reqOneUrl (by decide) rfl⟩

/-! ### Per-class conformance lemmas (claims C1 and C5) -/

theorem mergeResults_execFailed (acc : Aggregate) (c : String) (pcount : ℕ)
    (run : EngineRun) (cmd urls : List String) (pt : String) :
    mergeResults acc c urls.length pcount (execFailedJson run cmd urls pt)
      = .ok (accAdd acc c urls.length pcount
          (urls.map (perUrlExecFailed run cmd pt urls.length))
          0 (urls.length : ℚ) run.elapsed) := rfl

theorem mergeResults_malformed (acc : Aggregate) (c : String) (pcount : ℕ)
    (run : EngineRun) (e : String) (urls : List String) (pt : String) :
    mergeResults acc c urls.length pcount (malformedJson run e urls pt)
      = .ok (accAdd acc c urls.length pcount
          (urls.map (perUrlMalformed run e pt urls.length))
          0 (urls.length : ℚ) run.elapsed) := rfl

theorem results_match_true {j : Json}
    (h : (match j.lookup "results" with
          | some (.arr _) => true
          | _ => false) = true) :
    ∃ rs, j.lookup "results" = some (.arr rs) := by
  cases hr : j.lookup "results" with
  | none => rw [hr] at h; exact Bool.noConfusion h
  | some v =>
    cases v with
    | arr rs => exact ⟨rs, rfl⟩
    | null => rw [hr] at h; exact Bool.noConfusion h
    | jbool b => rw [hr] at h; exact Bool.noConfusion h
    | num q => rw [hr] at h; exact Bool.noConfusion h
    | str s => rw [hr] at h; exact Bool.noConfusion h
    | obj kvs => rw [hr] at h; exact Bool.noConfusion h

/-- Under the per-class conformance assumption, one loop iteration on a
populated class succeeds and applies the `accAdd` update, where the added
piece either comes from a degraded branch the bridge synthesized itself (zero
successes, all URLs failed, one record per URL in order) or from a
checked engine output. -/
theorem processClass_conformant (oenv : OrchEnv) (req : ScrapeRequest)
    (acc : Aggregate) (c : String) (check : List String → Json → Bool)
    (hfs : oenv.eng.fs.goScraperExists = true)
    (hok : classEngineOk oenv req check c = true)
    (hne : req.urlsFor c ≠ []) :
    ∃ rs s f ts,
      processClass oenv req acc c
        = .ok (accAdd acc c (req.urlsFor c).length
            (get_proxy_list oenv.getenv c).length rs s f ts)
      ∧ ((s = 0 ∧ f = ((req.urlsFor c).length : ℚ)
            ∧ rs.map (fun j => j.lookup "url")
                = (req.urlsFor c).map (fun u => some (Json.str u)))
          ∨ (∃ j, check (req.urlsFor c) j = true
              ∧ j.lookup "results" = some (.arr rs)
              ∧ numField j "successful" = some s
              ∧ numField j "failed" = some f)) := by
  by_cases hcode :
      (oenv.eng.engine (buildCmd (req.urlsFor c) (get_proxy_list oenv.getenv c) c
        req.timeout req.max_retries)).exitCode = 0
  case neg =>
    -- non-zero exit: the bridge synthesizes the failed results itself
    have hbridge : scrape_with_go oenv.eng (req.urlsFor c)
        (get_proxy_list oenv.getenv c) c req.timeout req.max_retries
        = .ok (execFailedJson
            (oenv.eng.engine (buildCmd (req.urlsFor c) (get_proxy_list oenv.getenv c) c
              req.timeout req.max_retries))
            (buildCmd (req.urlsFor c) (get_proxy_list oenv.getenv c) c
              req.timeout req.max_retries)
            (req.urlsFor c) c) := by
      rw [scrape_with_go_run oenv.eng (req.urlsFor c) (get_proxy_list oenv.getenv c) c
          req.timeout req.max_retries hne hfs,
        engineStep_nonzero oenv.eng _ (req.urlsFor c) c hcode]
    have hpc : processClass oenv req acc c
        = mergeResults acc c (req.urlsFor c).length
            (get_proxy_list oenv.getenv c).length
            (execFailedJson
              (oenv.eng.engine (buildCmd (req.urlsFor c) (get_proxy_list oenv.getenv c) c
                req.timeout req.max_retries))
              (buildCmd (req.urlsFor c) (get_proxy_list oenv.getenv c) c
                req.timeout req.max_retries)
              (req.urlsFor c) c) := by
      unfold processClass
      rw [if_neg hne, hbridge]
    rw [mergeResults_execFailed] at hpc
    refine ⟨_, _, _, _, hpc, Or.inl ⟨rfl, rfl, ?_⟩⟩
    rw [List.map_map]
    rfl
  case pos =>
    -- zero exit: the conformance assumption governs the parsed output
    have hemp : (req.urlsFor c).isEmpty = false := by
      cases hu : req.urlsFor c with
      | nil => exact absurd hu hne
      | cons a l => rfl
    simp only [classEngineOk] at hok
    rw [hemp] at hok
    simp only [Bool.false_or] at hok
    rw [beq_iff_eq.mpr hcode] at hok
    simp only [Bool.not_true, Bool.false_or] at hok
    cases hp : oenv.eng.parse
        (oenv.eng.engine (buildCmd (req.urlsFor c) (get_proxy_list oenv.getenv c) c
          req.timeout req.max_retries)).stdoutText with
    | error e =>
      have hbridge : scrape_with_go oenv.eng (req.urlsFor c)
          (get_proxy_list oenv.getenv c) c req.timeout req.max_retries
          = .ok (malformedJson
              (oenv.eng.engine (buildCmd (req.urlsFor c) (get_proxy_list oenv.getenv c) c
                req.timeout req.max_retries))
              e (req.urlsFor c) c) := by
        rw [scrape_with_go_run oenv.eng (req.urlsFor c) (get_proxy_list oenv.getenv c) c
            req.timeout req.max_retries hne hfs,
          engineStep_parse_error oenv.eng _ (req.urlsFor c) c e hcode hp]
      have hpc : processClass oenv req acc c
          = mergeResults acc c (req.urlsFor c).length
              (get_proxy_list oenv.getenv c).length
              (malformedJson
                (oenv.eng.engine (buildCmd (req.urlsFor c) (get_proxy_list oenv.getenv c) c
                  req.timeout req.max_retries))
                e (req.urlsFor c) c) := by
        unfold processClass
        rw [if_neg hne, hbridge]
      rw [mergeResults_malformed] at hpc
      refine ⟨_, _, _, _, hpc, Or.inl ⟨rfl, rfl, ?_⟩⟩
      rw [List.map_map]
      rfl
    | ok j =>
      rw [hp] at hok
      simp only [Bool.and_eq_true] at hok
      obtain ⟨hw, hcheck⟩ := hok
      simp only [outputWellFormed, Bool.and_eq_true, Option.isSome_iff_exists] at hw
      obtain ⟨⟨⟨⟨⟨tv, htv⟩, s, hsEq⟩, f, hfEq⟩, ts, htsEq⟩, hresM⟩ := hw
      obtain ⟨rs, hresEq⟩ := results_match_true hresM
      obtain ⟨sv, hsv, -⟩ := Option.bind_eq_some.mp hsEq
      obtain ⟨fv, hfv, -⟩ := Option.bind_eq_some.mp hfEq
      have hbridge : scrape_with_go oenv.eng (req.urlsFor c)
          (get_proxy_list oenv.getenv c) c req.timeout req.max_retries = .ok j := by
        rw [scrape_with_go_run oenv.eng (req.urlsFor c) (get_proxy_list oenv.getenv c) c
            req.timeout req.max_retries hne hfs,
          engineStep_keys_present oenv.eng _ (req.urlsFor c) c j tv sv fv hcode hp htv
            hsv hfv]
      have hpc : processClass oenv req acc c
          = .ok (accAdd acc c (req.urlsFor c).length
              (get_proxy_list oenv.getenv c).length rs s f ts) := by
        unfold processClass mergeResults
        rw [if_neg hne, hbridge]
        simp [hresEq, hsEq, hfEq, htsEq]
      exact ⟨rs, s, f, ts, hpc, Or.inr ⟨j, hcheck, hresEq, hsEq, hfEq⟩⟩

theorem castSum (req : ScrapeRequest) (cs : List String) :
    (((cs.map (fun c => (req.urlsFor c).length)).sum : ℕ) : ℚ)
      = (cs.map (fun c => ((req.urlsFor c).length : ℚ))).sum := by
  induction cs with
  | nil => simp
  | cons a t ih => simp [ih]

theorem fold_totals (oenv : OrchEnv) (req : ScrapeRequest)
    (hfs : oenv.eng.fs.goScraperExists = true) (cs : List String)
    (hok : ∀ c ∈ cs,
      classEngineOk oenv req (fun urls j => outputTotalsOk urls.length j) c = true)
    (acc : Aggregate) :
    ∃ acc2, List.foldlM (processClass oenv req) acc cs = .ok acc2
      ∧ acc2.successful + acc2.failed
          = acc.successful + acc.failed
            + (cs.map (fun c => ((req.urlsFor c).length : ℚ))).sum
      ∧ acc2.total_urls
          = acc.total_urls + (cs.map (fun c => (req.urlsFor c).length)).sum
      ∧ (∀ d ∈ acc2.proxy_type_details,
          d ∈ acc.proxy_type_details
            ∨ d.2.successful + d.2.failed = (d.2.urls_count : ℚ)) := by
  induction cs generalizing acc with
  | nil => exact ⟨acc, rfl, by simp, by simp, fun d hd => Or.inl hd⟩
  | cons c rest ih =>
    have hrest : ∀ c2 ∈ rest,
        classEngineOk oenv req (fun urls j => outputTotalsOk urls.length j) c2 = true :=
      fun c2 h2 => hok c2 (List.mem_cons_of_mem c h2)
    by_cases hne : req.urlsFor c = []
    · rw [foldlM_cons_eq, processClass_skip oenv req acc c hne, except_bind_ok]
      obtain ⟨acc2, h1, h2, h3, h4⟩ := ih hrest acc
      refine ⟨acc2, h1, ?_, ?_, h4⟩
      · rw [h2]
        simp [hne]
      · rw [h3]
        simp [hne]
    · obtain ⟨rs, s, f, ts, hpc, hdisj⟩ :=
        processClass_conformant oenv req acc c
          (fun urls j => outputTotalsOk urls.length j) hfs
          (hok c (List.mem_cons_self c rest)) hne
      have hsf : s + f = ((req.urlsFor c).length : ℚ) := by
        rcases hdisj with ⟨hs0, hf0, -⟩ | ⟨j, hcheck, hres, hsEq, hfEq⟩
        · rw [hs0, hf0]
          ring
        · unfold outputTotalsOk at hcheck
          rw [hsEq, hfEq] at hcheck
          simpa using hcheck
      rw [foldlM_cons_eq, hpc, except_bind_ok]
      obtain ⟨acc2, h1, h2, h3, h4⟩ := ih hrest
        (accAdd acc c (req.urlsFor c).length (get_proxy_list oenv.getenv c).length rs s f ts)
      refine ⟨acc2, h1, ?_, ?_, ?_⟩
      · rw [h2]
        simp only [accAdd, List.map_cons, List.sum_cons]
        linarith [hsf]
      · rw [h3]
        simp only [accAdd, List.map_cons, List.sum_cons]
        omega
      · intro d hd
        rcases h4 d hd with hmem | hinv
        · simp only [accAdd, List.mem_append, List.mem_singleton] at hmem
          rcases hmem with hmem | rfl
          · exact Or.inl hmem
          · exact Or.inr hsf
        · exact Or.inr hinv

theorem zip_url_map : ∀ (rs : List Json) (urls : List String),
    rs.length = urls.length →
    (∀ p ∈ rs.zip urls,
      (match p.1.lookup "url" with
       | some (.str u) => u == p.2
       | _ => false) = true) →
    rs.map (fun j => j.lookup "url") = urls.map (fun u => some (Json.str u)) := by
  intro rs
  induction rs with
  | nil =>
    intro urls hlen _
    cases urls with
    | nil => rfl
    | cons u ut => exact absurd hlen (by simp)
  | cons j jt ih =>
    intro urls hlen hall
    cases urls with
    | nil => exact absurd hlen (by simp)
    | cons u ut =>
      have hp := hall (j, u) (List.mem_cons_self _ _)
      have hju : j.lookup "url" = some (.str u) := by
        cases hl : j.lookup "url" with
        | none => rw [hl] at hp; exact Bool.noConfusion hp
        | some v =>
          cases v with
          | str s2 =>
            rw [hl] at hp
            simp only [beq_iff_eq] at hp
            rw [hp]
          | null => rw [hl] at hp; exact Bool.noConfusion hp
          | jbool b => rw [hl] at hp; exact Bool.noConfusion hp
          | num q => rw [hl] at hp; exact Bool.noConfusion hp
          | arr xs => rw [hl] at hp; exact Bool.noConfusion hp
          | obj kvs => rw [hl] at hp; exact Bool.noConfusion hp
      have hrest := ih ut (by simpa using hlen)
        (fun p hp2 => hall p (List.mem_cons_of_mem _ hp2))
      simp [hju, hrest]

theorem fold_order (oenv : OrchEnv) (req : ScrapeRequest)
    (hfs : oenv.eng.fs.goScraperExists = true) (cs : List String)
    (hok : ∀ c ∈ cs, classEngineOk oenv req outputOrderOk c = true)
    (acc : Aggregate) :
    ∃ acc2, List.foldlM (processClass oenv req) acc cs = .ok acc2
      ∧ acc2.results.map (fun j => j.lookup "url")
          = acc.results.map (fun j => j.lookup "url")
            ++ (cs.map (fun c =>
                (req.urlsFor c).map (fun u => some (Json.str u)))).flatten := by
  induction cs generalizing acc with
  | nil => exact ⟨acc, rfl, by simp⟩
  | cons c rest ih =>
    have hrest : ∀ c2 ∈ rest, classEngineOk oenv req outputOrderOk c2 = true :=
      fun c2 h2 => hok c2 (List.mem_cons_of_mem c h2)
    by_cases hne : req.urlsFor c = []
    · rw [foldlM_cons_eq, processClass_skip oenv req acc c hne, except_bind_ok]
      obtain ⟨acc2, h1, h2⟩ := ih hrest acc
      refine ⟨acc2, h1, ?_⟩
      rw [h2]
      simp [hne]
    · obtain ⟨rs, s, f, ts, hpc, hdisj⟩ :=
        processClass_conformant oenv req acc c outputOrderOk hfs
          (hok c (List.mem_cons_self c rest)) hne
      have hmap : rs.map (fun j => j.lookup "url")
          = (req.urlsFor c).map (fun u => some (Json.str u)) := by
        rcases hdisj with ⟨-, -, hm⟩ | ⟨j, hcheck, hres, -, -⟩
        · exact hm
        · unfold outputOrderOk at hcheck
          rw [hres] at hcheck
          simp only [Bool.and_eq_true, beq_iff_eq] at hcheck
          obtain ⟨hlen, hall⟩ := hcheck
          rw [List.all_eq_true] at hall
          exact zip_url_map rs (req.urlsFor c) hlen hall
      rw [foldlM_cons_eq, hpc, except_bind_ok]
      obtain ⟨acc2, h1, h2⟩ := ih hrest
        (accAdd acc c (req.urlsFor c).length (get_proxy_list oenv.getenv c).length rs s f ts)
      refine ⟨acc2, h1, ?_⟩
      rw [h2]
      simp only [accAdd]
      rw [List.map_append, hmap]
      simp [List.append_assoc]

/-- Claim C1: on a completed orchestration over a conformant engine, the
aggregate satisfies total = successful + failed, the total counts the URLs
submitted across all populated classes, and each per-class report satisfies
successful + failed = url count.  The degraded branches (non-zero exit,
undecodable output) satisfy this unconditionally; conformance is needed only
for counts an engine reports itself on its success path (spec §6). -/
theorem scrape_totals_consistent (oenv : OrchEnv) (req : ScrapeRequest)
    (hfs : oenv.eng.fs.goScraperExists = true)
    (hconf : engineTotalsOk oenv req = true) :
    ∃ agg, scrape_urls oenv req = .ok agg ∧ TotalsInvariantSpec req agg := by
  have hok : ∀ c ∈ scrapeClasses,
      classEngineOk oenv req (fun urls j => outputTotalsOk urls.length j) c = true := by
    unfold engineTotalsOk at hconf
    rw [List.all_eq_true] at hconf
    exact hconf
  obtain ⟨acc2, h1, h2, h3, h4⟩ := fold_totals oenv req hfs scrapeClasses hok initAgg
  have hsum3 : (scrapeClasses.map (fun c => (req.urlsFor c).length)).sum
      = req.datacenter.length + (req.residential.length + (req.mobile.length + 0)) := rfl
  refine ⟨finalize oenv.total_time acc2, ?_, ?_, ?_, ?_⟩
  · unfold scrape_urls
    rw [h1]
    rfl
  · show acc2.successful + acc2.failed = (acc2.total_urls : ℚ)
    rw [h2, h3, ← castSum req scrapeClasses]
    push_cast
    simp [initAgg]
  · show acc2.total_urls = _
    rw [h3, hsum3]
    simp [initAgg]
    omega
  · intro d hd
    rcases h4 d hd with hmem | hinv
    · exact absurd hmem (List.not_mem_nil d)
    · exact hinv

/-- Witness for claim C1, over the concrete always-crashing engine (a
degraded run on every populated class). -/
theorem scrape_totals_consistent_witness :
    oenvExitNonzero.eng.fs.goScraperExists = true
    ∧ engineTotalsOk oenvExitNonzero reqOneUrl = true
    ∧ ∃ agg, scrape_urls oenvExitNonzero reqOneUrl = .ok agg
        ∧ TotalsInvariantSpec reqOneUrl agg :=
  ⟨rfl, by decide,
    scrape_totals_consistent oenvExitNonzero reqOneUrl rfl (by decide)⟩

/-- Claim C5: on a completed orchestration of a valid request over a
conformant engine, the flat results sequence holds exactly one URLResult per
submitted URL, under the class it was submitted in, preserving submission
order within each class, with classes in the fixed order datacenter,
residential, mobile. -/
theorem scrape_results_order (oenv : OrchEnv) (req : ScrapeRequest)
    (hval : validate req = [])
    (hfs : oenv.eng.fs.goScraperExists = true)
    (hconf : engineOrderOk oenv req = true) :
    ∃ agg, scrape_urls oenv req = .ok agg ∧ ResultsOrderSpec req agg := by
  have hok : ∀ c ∈ scrapeClasses, classEngineOk oenv req outputOrderOk c = true := by
    unfold engineOrderOk at hconf
    rw [List.all_eq_true] at hconf
    exact hconf
  obtain ⟨acc2, h1, h2⟩ := fold_order oenv req hfs scrapeClasses hok initAgg
  refine ⟨finalize oenv.total_time acc2, ?_, ?_⟩
  · unfold scrape_urls
    rw [h1]
    rfl
  · show acc2.results.map (fun j => j.lookup "url") = _
    rw [h2]
    have hd : req.urlsFor "datacenter" = req.datacenter := rfl
    have hr : req.urlsFor "residential" = req.residential := rfl
    have hm : req.urlsFor "mobile" = req.mobile := rfl
    simp [scrapeClasses, hd, hr, hm, initAgg, List.map_append, List.append_assoc]

/-- Witness for claim C5, over the concrete always-crashing engine. -/
theorem scrape_results_order_witness :
    validate reqOneUrl = []
    ∧ oenvExitNonzero.eng.fs.goScraperExists = true
    ∧ engineOrderOk oenvExitNonzero reqOneUrl = true
    ∧ ∃ agg, scrape_urls oenvExitNonzero reqOneUrl = .ok agg
        ∧ ResultsOrderSpec reqOneUrl agg :=
  ⟨by decide, rfl, by decide,
    scrape_results_order oenvExitNonzero reqOneUrl (by decide) rfl (by decide)⟩

/-- Claim C8: for every completed orchestration run, the reported
orchestration overhead equals max(0, measured total wall-clock time minus the
summed engine-reported per-class times), and is therefore non-negative even
when the engine-reported sum exceeds the measured time. -/
theorem overhead_clamped (oenv : OrchEnv) (req : ScrapeRequest) (agg : Aggregate)
    (h : scrape_urls oenv req = .ok agg) : OverheadSpec agg := by
  unfold scrape_urls at h
  cases hf : List.foldlM (processClass oenv req) initAgg scrapeClasses with
  | error e =>
    rw [hf] at h
    exact Except.noConfusion h
  | ok acc2 =>
    rw [hf] at h
    simp only [Except.map, Except.ok.injEq] at h
    subst h
    unfold OverheadSpec
    exact ⟨rfl, le_max_left _ _⟩

/-- Witness for claim C8, at the empty request (the fold is a no-op, the
overhead clamps max(0, 1 - 0) = 1 ≥ 0). -/
theorem overhead_clamped_witness :
    scrape_urls oenvExitNonzero reqNoUrls = .ok (finalize 1 initAgg)
    ∧ OverheadSpec (finalize 1 initAgg) :=
  ⟨rfl, overhead_clamped oenvExitNonzero reqNoUrls (finalize 1 initAgg) rfl⟩
